import Mathlib

/-!
# Live update fan-out engine — verification of the specification

Shallow embedding of `src/servers/channels/messages/live.rs` (change-event
decoder, topic router, per-channel fan-out worker) and of `render_message`
from `src/servers/channels/messages/mod.rs`, together with theorems settling
the claims about them.

Rust strings are modelled as `List Char`; `payload.len()` in Rust is the
UTF-8 byte length, and `&payload[..n]` is byte slicing which panics when
`n` is not a character boundary — both are modelled explicitly.
UUID values are modelled as the natural number given by their 32 hex
digits, which matches `uuid::Uuid` equality (parsing is case-insensitive).
-/

namespace LiveChat

/-- UTF-8 byte length of a Rust `&str` modelled as a list of chars
(Rust's `payload.len()`). -/
def utf8Len (cs : List Char) : Nat := (cs.map Char.utf8Size).sum

/-- Byte-slicing a Rust string at byte index `n`: `some (pre, suf)` models the
pair `(&s[..n], &s[n..])`; `none` models the panic that Rust raises when `n`
is not on a character boundary. -/
def splitBytes : List Char → Nat → Option (List Char × List Char)
  | cs, 0 => some ([], cs)
  | [], _ + 1 => none
  | c :: cs, n + 1 =>
    if c.utf8Size ≤ n + 1 then
      match splitBytes cs (n + 1 - c.utf8Size) with
      | some (pre, suf) => some (c :: pre, suf)
      | none => none
    else none

/-- Value of one hex digit, as accepted by `uuid::Uuid::try_parse`
(case-insensitive). -/
def hexVal (c : Char) : Option Nat :=
  if '0' ≤ c ∧ c ≤ '9' then some (c.toNat - '0'.toNat)
  else if 'a' ≤ c ∧ c ≤ 'f' then some (c.toNat - 'a'.toNat + 10)
  else if 'A' ≤ c ∧ c ≤ 'F' then some (c.toNat - 'A'.toNat + 10)
  else none

/-- In the 36-byte hyphenated UUID form, bytes 8, 13, 18 and 23 are the
hyphens (`8-4-4-4-12`). -/
def isHyphenPos (i : Nat) : Bool := i == 8 || i == 13 || i == 18 || i == 23

/-- Walk the 36 characters of a candidate hyphenated UUID accumulating the
128-bit value of its 32 hex digits. -/
def parseHyphenatedAux : Nat → Nat → List Char → Option Nat
  | _, acc, [] => some acc
  | i, acc, c :: cs =>
    if isHyphenPos i then
      if c = '-' then parseHyphenatedAux (i + 1) acc cs else none
    else
      match hexVal c with
      | some v => parseHyphenatedAux (i + 1) (acc * 16 + v) cs
      | none => none

/-- Model of `uuid::Uuid::try_parse` restricted to the call sites in
`handle_notification`, where the input slice is exactly 36 bytes long: a
36-byte string parses only in the hyphenated `8-4-4-4-12` format (all such
strings are ASCII, so 36 bytes means 36 chars). Result: the 128-bit value. -/
def uuid_try_parse (cs : List Char) : Option Nat :=
  if cs.length = 36 then parseHyphenatedAux 0 0 cs else none

/-- The three change kinds (`enum Kind` in `live.rs`). -/
inductive Kind
  | Insert
  | Update
  | Delete
deriving DecidableEq, Repr

/-- Decoded change event: `kind` plus the two parsed UUIDs. `message_id` is
the spec's `entity_id`, `channel_id` the spec's `topic_id`. -/
structure ChangeEvent where
  kind : Kind
  message_id : Nat
  channel_id : Nat
deriving DecidableEq, Repr

/-- Outcome of the decode portion of `handle_notification`
(`live.rs` lines 85–109). -/
inductive DecodeResult
  | ok (ev : ChangeEvent)
  | rejected
  | panicked
deriving DecidableEq, Repr

/-- The channel-name → `Kind` table of `handle_notification`
(`live.rs` lines 93–101). -/
def kind_of_channel (channel : String) : Option Kind :=
  if channel = "insert_message" then some Kind.Insert
  else if channel = "update_message" then some Kind.Update
  else if channel = "delete_message" then some Kind.Delete
  else none

/-- Decode portion of `handle_notification` (`live.rs` lines 85–109), in
source order: byte-length check (`payload.len() != UUID_LEN * 2` → log and
return), channel-name match (unknown → log and return), byte slicing at 36
(`&payload[..36]` / `&payload[36..]`, panics off a char boundary), then the
two UUID parses (either failing → log and return). -/
def decode_notification (channel : String) (payload : List Char) : DecodeResult :=
  if utf8Len payload ≠ 36 * 2 then .rejected
  else
    match kind_of_channel channel with
    | none => .rejected
    | some kind =>
      match splitBytes payload 36 with
      | none => .panicked
      | some (pre, suf) =>
        match uuid_try_parse pre, uuid_try_parse suf with
        | some message_id, some channel_id => .ok ⟨kind, message_id, channel_id⟩
        | some _, none => .rejected
        | none, _ => .rejected

/-! ## Byte-length and slicing lemmas -/

theorem utf8Len_nil : utf8Len [] = 0 := rfl

theorem utf8Len_cons (c : Char) (cs : List Char) :
    utf8Len (c :: cs) = c.utf8Size + utf8Len cs := by
  simp [utf8Len]

theorem utf8Len_append (a b : List Char) :
    utf8Len (a ++ b) = utf8Len a + utf8Len b := by
  simp [utf8Len]

theorem utf8Len_eq_length {cs : List Char} (h : ∀ c ∈ cs, c.utf8Size = 1) :
    utf8Len cs = cs.length := by
  induction cs with
  | nil => rfl
  | cons c cs ih =>
    rw [utf8Len_cons, h c (by simp), ih (fun d hd => h d (by simp [hd])),
      List.length_cons]
    omega

theorem splitBytes_zero (cs : List Char) : splitBytes cs 0 = some ([], cs) := by
  cases cs <;> rfl

theorem splitBytes_eq_some {cs pre suf : List Char} {n : Nat}
    (h : splitBytes cs n = some (pre, suf)) :
    cs = pre ++ suf ∧ utf8Len pre = n := by
  induction cs generalizing n pre suf with
  | nil =>
    cases n with
    | zero => rw [splitBytes_zero] at h; cases h; exact ⟨rfl, rfl⟩
    | succ n => simp [splitBytes] at h
  | cons c cs ih =>
    cases n with
    | zero =>
      rw [splitBytes_zero] at h; cases h
      exact ⟨rfl, rfl⟩
    | succ n =>
      unfold splitBytes at h
      by_cases hle : c.utf8Size ≤ n + 1
      · rw [if_pos hle] at h
        cases hsp : splitBytes cs (n + 1 - c.utf8Size) with
        | none => rw [hsp] at h; cases h
        | some pq =>
          obtain ⟨p, q⟩ := pq
          rw [hsp] at h
          cases h
          obtain ⟨hcs, hlen⟩ := ih hsp
          subst hcs
          refine ⟨rfl, ?_⟩
          rw [utf8Len_cons, hlen]
          omega
      · rw [if_neg hle] at h; cases h

theorem splitBytes_append (pre suf : List Char) :
    splitBytes (pre ++ suf) (utf8Len pre) = some (pre, suf) := by
  induction pre with
  | nil => simpa using splitBytes_zero suf
  | cons c pre ih =>
    have hpos : 0 < c.utf8Size := Char.utf8Size_pos c
    obtain ⟨m, hm⟩ : ∃ m, utf8Len (c :: pre) = m + 1 :=
      ⟨utf8Len (c :: pre) - 1, by rw [utf8Len_cons]; omega⟩
    have hm' : m + 1 = c.utf8Size + utf8Len pre := by rw [← hm, utf8Len_cons]
    rw [hm, List.cons_append]
    unfold splitBytes
    rw [if_pos (by omega)]
    have harg : m + 1 - c.utf8Size = utf8Len pre := by omega
    rw [harg, ih]

/-! ## UUID-parse lemmas -/

theorem parseHyphenatedAux_chars {i acc v : Nat} {cs : List Char}
    (h : parseHyphenatedAux i acc cs = some v) :
    ∀ c ∈ cs, c = '-' ∨ (hexVal c).isSome := by
  induction cs generalizing i acc with
  | nil => simp
  | cons c cs ih =>
    intro d hd
    unfold parseHyphenatedAux at h
    by_cases hp : isHyphenPos i
    · rw [if_pos hp] at h
      by_cases hc : c = '-'
      · rw [if_pos hc] at h
        rcases List.mem_cons.mp hd with rfl | hd
        · exact Or.inl hc
        · exact ih h d hd
      · rw [if_neg hc] at h; cases h
    · rw [if_neg hp] at h
      cases hx : hexVal c with
      | none => rw [hx] at h; cases h
      | some w =>
        rw [hx] at h
        rcases List.mem_cons.mp hd with rfl | hd
        · exact Or.inr (by rw [hx]; rfl)
        · exact ih h d hd

theorem utf8Size_eq_one_of_toNat_le {c : Char} (h : c.toNat ≤ 127) :
    c.utf8Size = 1 := by
  have hv : c.val ≤ 0x7F := by
    change c.val.val ≤ (0x7F : UInt32).val
    rw [Fin.le_def]
    exact h
  unfold Char.utf8Size
  simp [hv]

theorem toNat_le_of_char_le {c d : Char} (h : c ≤ d) : c.toNat ≤ d.toNat := by
  rw [Char.le_def] at h
  change c.val.val ≤ d.val.val at h
  rw [Fin.le_def] at h
  exact h

theorem utf8Size_eq_one_of_uuid_char {c : Char}
    (h : c = '-' ∨ (hexVal c).isSome) : c.utf8Size = 1 := by
  rcases h with rfl | h
  · rfl
  · unfold hexVal at h
    by_cases h1 : '0' ≤ c ∧ c ≤ '9'
    · exact utf8Size_eq_one_of_toNat_le
        (le_trans (toNat_le_of_char_le h1.2) (by decide))
    · rw [if_neg h1] at h
      by_cases h2 : 'a' ≤ c ∧ c ≤ 'f'
      · exact utf8Size_eq_one_of_toNat_le
          (le_trans (toNat_le_of_char_le h2.2) (by decide))
      · rw [if_neg h2] at h
        by_cases h3 : 'A' ≤ c ∧ c ≤ 'F'
        · exact utf8Size_eq_one_of_toNat_le
            (le_trans (toNat_le_of_char_le h3.2) (by decide))
        · rw [if_neg h3] at h
          cases h

theorem uuid_try_parse_length {cs : List Char} {v : Nat}
    (h : uuid_try_parse cs = some v) : cs.length = 36 := by
  unfold uuid_try_parse at h
  by_cases hl : cs.length = 36
  · exact hl
  · rw [if_neg hl] at h; cases h

theorem uuid_try_parse_ascii {cs : List Char} {v : Nat}
    (h : uuid_try_parse cs = some v) : ∀ c ∈ cs, c.utf8Size = 1 := by
  unfold uuid_try_parse at h
  by_cases hl : cs.length = 36
  · rw [if_pos hl] at h
    exact fun c hc =>
      utf8Size_eq_one_of_uuid_char (parseHyphenatedAux_chars h c hc)
  · rw [if_neg hl] at h; cases h

theorem uuid_try_parse_utf8Len {cs : List Char} {v : Nat}
    (h : uuid_try_parse cs = some v) : utf8Len cs = 36 := by
  rw [utf8Len_eq_length (uuid_try_parse_ascii h)]
  exact uuid_try_parse_length h

/-- Full characterization of decode success: `handle_notification` reaches the
routing stage with event `ev` exactly when the channel name is recognized with
`ev.kind`, the payload is 72 characters, and its two 36-character halves parse
as UUIDs giving `ev.message_id` and `ev.channel_id`. -/
theorem decode_notification_eq_ok {channel : String} {payload : List Char}
    {ev : ChangeEvent} :
    decode_notification channel payload = .ok ev ↔
      kind_of_channel channel = some ev.kind ∧ payload.length = 72 ∧
      uuid_try_parse (payload.take 36) = some ev.message_id ∧
      uuid_try_parse (payload.drop 36) = some ev.channel_id := by
  constructor
  · intro h
    unfold decode_notification at h
    by_cases hlen : utf8Len payload ≠ 36 * 2
    · rw [if_pos hlen] at h; cases h
    rw [if_neg hlen] at h
    cases hk : kind_of_channel channel with
    | none => rw [hk] at h; cases h
    | some k =>
      rw [hk] at h
      cases hsp : splitBytes payload 36 with
      | none => rw [hsp] at h; cases h
      | some pq =>
        obtain ⟨pre, suf⟩ := pq
        rw [hsp] at h
        dsimp only at h
        cases hp1 : uuid_try_parse pre with
        | none => rw [hp1] at h; cases h
        | some mid =>
          rw [hp1] at h
          cases hp2 : uuid_try_parse suf with
          | none => rw [hp2] at h; cases h
          | some cid =>
            rw [hp2] at h
            cases h
            obtain ⟨hcat, hpreLen⟩ := splitBytes_eq_some hsp
            have hpre36 : pre.length = 36 := uuid_try_parse_length hp1
            have hsuf36 : suf.length = 36 := uuid_try_parse_length hp2
            subst hcat
            have htake : (pre ++ suf).take 36 = pre := by
              rw [← hpre36, List.take_left]
            have hdrop : (pre ++ suf).drop 36 = suf := by
              rw [← hpre36, List.drop_left]
            refine ⟨rfl, ?_, ?_, ?_⟩
            · rw [List.length_append, hpre36, hsuf36]
            · rw [htake]; exact hp1
            · rw [hdrop]; exact hp2
  · rintro ⟨hk, hlen, hp1, hp2⟩
    have h1 : utf8Len (payload.take 36) = 36 := uuid_try_parse_utf8Len hp1
    have h2 : utf8Len (payload.drop 36) = 36 := uuid_try_parse_utf8Len hp2
    have hLen72 : utf8Len payload = 72 := by
      conv_lhs => rw [← List.take_append_drop 36 payload]
      rw [utf8Len_append, h1, h2]
    have hsp : splitBytes payload 36 = some (payload.take 36, payload.drop 36) := by
      conv_lhs => rw [← List.take_append_drop 36 payload]
      have haux := splitBytes_append (payload.take 36) (payload.drop 36)
      rw [h1] at haux
      exact haux
    unfold decode_notification
    rw [if_neg (by omega), hk, hsp]
    dsimp only
    rw [hp1, hp2]

/-- C1: decoding an input pair `(channel_name, payload)` succeeds if and only
if the channel name is one of the three recognized names (giving the event's
kind), the payload is exactly 72 characters, and its first and last 36
characters both parse as UUIDs; on success the event carries the first half as
`message_id` (the entity id) and the second half as `channel_id` (the topic
id); and every payload whose (byte) length is not 72 is rejected outright. -/
theorem C1_decode_iff (channel : String) (payload : List Char) :
    ((∃ ev, decode_notification channel payload = .ok ev) ↔
      ((kind_of_channel channel).isSome ∧ payload.length = 72 ∧
        (uuid_try_parse (payload.take 36)).isSome ∧
        (uuid_try_parse (payload.drop 36)).isSome)) ∧
    (∀ ev, decode_notification channel payload = .ok ev →
      kind_of_channel channel = some ev.kind ∧
      uuid_try_parse (payload.take 36) = some ev.message_id ∧
      uuid_try_parse (payload.drop 36) = some ev.channel_id) ∧
    (utf8Len payload ≠ 72 → decode_notification channel payload = .rejected) := by
  refine ⟨⟨?_, ?_⟩, ?_, ?_⟩
  · rintro ⟨ev, hev⟩
    obtain ⟨hk, hlen, hp1, hp2⟩ := decode_notification_eq_ok.mp hev
    exact ⟨by rw [hk]; rfl, hlen, by rw [hp1]; rfl, by rw [hp2]; rfl⟩
  · rintro ⟨hk, hlen, hp1, hp2⟩
    obtain ⟨k, hk⟩ := Option.isSome_iff_exists.mp hk
    obtain ⟨mid, hp1⟩ := Option.isSome_iff_exists.mp hp1
    obtain ⟨cid, hp2⟩ := Option.isSome_iff_exists.mp hp2
    exact ⟨⟨k, mid, cid⟩, decode_notification_eq_ok.mpr ⟨hk, hlen, hp1, hp2⟩⟩
  · intro ev hev
    obtain ⟨hk, _, hp1, hp2⟩ := decode_notification_eq_ok.mp hev
    exact ⟨hk, hp1, hp2⟩
  · intro hlen
    unfold decode_notification
    rw [if_pos (by omega)]

/-- A valid 72-character payload: two concatenated hyphenated UUIDs. -/
def samplePayload : List Char :=
  String.toList
    "0191d3f8-5a2b-7cc3-9b3e-1a2b3c4d5e6f0191d3f8-5a2b-7cc3-9b3e-1a2b3c4d5eff"

theorem C1_decode_iff_witness :
    ∃ ev, decode_notification "insert_message" samplePayload = .ok ev :=
  (C1_decode_iff "insert_message" samplePayload).1.mpr (by decide)

/-! ## Rendering (`render_message`, `mod.rs` lines 294–339) -/

/-- The error variant `render_message` can produce (`Error::NoTimestampFromUuid`
in the crate's error enum; its shape is visible at the use site in `mod.rs`). -/
inductive Error
  | NoTimestampFromUuid (id : Nat)
deriving DecidableEq, Repr

/-- External collaborators of the renderer, passed as parameters: maud's text
escaping, chrono's RFC 3339 formatting, the `relativetime` crate's formatting
of a duration, `Display` for `uuid::Uuid`, the `utils::MyUuidExt::get_datetime`
timestamp extraction (a thin wrapper over `uuid::Uuid::get_timestamp`, so its
value depends only on the UUID), and the current instant `Utc::now()`.
Timestamps are modelled as integers. -/
structure RenderEnv where
  escape : String → String
  toRfc3339 : Int → String
  toRelative : Int → String
  uuidToString : Nat → String
  get_datetime : Nat → Option Int
  now : Int

/-- The `struct Message` from `mod.rs` (row of the entity fetch). -/
structure Message where
  id : Nat
  content : String
  updated : Int
  author : Nat
  author_name : String
deriving DecidableEq, Repr

/-- Embedding of `render_message` (`mod.rs` lines 294–339): fails with
`NoTimestampFromUuid` when the message id carries no timestamp; otherwise
produces the HTML fragment of the maud template. `user_id` is consulted only
to compute `is_author = (msg.author == user_id)`, which selects the
chat-end/chat-start classes, the primary bubble class, and the presence of the
Edit button. -/
def render_message (env : RenderEnv) (msg : Message)
    (user_id channel_id server_id : Nat) (swap_oob : Bool) :
    Except Error String :=
  let is_author := msg.author == user_id
  match env.get_datetime msg.id with
  | none => .error (.NoTimestampFromUuid msg.id)
  | some created_at =>
    .ok (String.join [
      "<li class=\"group chat",
      if is_author then " chat-end" else " chat-start",
      "\" id=\"msg-", env.uuidToString msg.id, "\"",
      if swap_oob then " hx-swap-oob=\"true\"" else "",
      "><div class=\"chat-header\">",
      if msg.updated > created_at then
        "<span class=\"italic text-xs opacity-50\">Edited </span>"
      else "",
      env.escape msg.author_name, " ",
      "<time class=\"text-xs opacity-50\" datetime=\"",
      env.toRfc3339 created_at, "\">",
      env.toRelative (created_at - env.now), "</time></div>",
      "<div class=\"chat-bubble",
      if is_author then " chat-bubble-primary" else "",
      "\">", env.escape msg.content, "</div>",
      "<div class=\"chat-footer transition-opacity\"",
      " hx-target=\"closest li\" hx-swap=\"outerHTML\">",
      if is_author then
        String.join ["<button class=\"link mr-2 opacity-0",
          " group-hover:opacity-100\" hx-get=\"/servers/",
          env.uuidToString server_id, "/channels/",
          env.uuidToString channel_id, "/messages/",
          env.uuidToString msg.id, "/editable\">Edit</button>"]
      else "",
      "<button class=\"link link-error opacity-0 group-hover:opacity-100\"",
      " hx-delete=\"/servers/", env.uuidToString server_id, "/channels/",
      env.uuidToString channel_id, "/messages/", env.uuidToString msg.id,
      "\" hx-confirm=\"Are you sure?\">Delete</button></div></li>"])

/-- The deletion instruction sent on a Delete event
(`live.rs` lines 194–196): `html!(#{"msg-"(message_id)} hx-swap-oob="delete")`.
It depends only on the event's entity id. -/
def delete_message_data (env : RenderEnv) (message_id : Nat) : String :=
  "<div id=\"msg-" ++ env.uuidToString message_id ++
    "\" hx-swap-oob=\"delete\"></div>"

/-! ## Fan-out worker state (`spawn_channel_task`, `live.rs` lines 123–147) -/

/-- A subscriber's delivery channel as held by the worker: the sending half of
the `mpsc::unbounded_channel`. `token` identifies the concrete channel
instance (each registration creates a fresh one); `alive` says whether the
receiving half still exists (a send to a dropped receiver returns `Err`). -/
structure Sender where
  token : Nat
  alive : Bool
deriving DecidableEq, Repr

/-- A `BTreeMap` lookup on an association list with unique keys. -/
def lookupAL {α : Type} (k : Nat) : List (Nat × α) → Option α
  | [] => none
  | (k', v) :: rest => if k' = k then some v else lookupAL k rest

/-- Model of `BTreeMap::insert`: replaces the value when the key is present, otherwise
adds the entry (iteration order of the map is abstracted). -/
def insertAL {α : Type} (k : Nat) (v : α) : List (Nat × α) → List (Nat × α)
  | [] => [(k, v)]
  | (k', v') :: rest =>
    if k' = k then (k, v) :: rest else (k', v') :: insertAL k v rest

/-- Model of `BTreeMap::remove`. -/
def removeAL {α : Type} (k : Nat) : List (Nat × α) → List (Nat × α)
  | [] => []
  | (k', v') :: rest => if k' = k then rest else (k', v') :: removeAL k rest

/-- The map invariant `BTreeMap` maintains: one entry per key. -/
def keyNodup {α : Type} (m : List (Nat × α)) : Prop :=
  (m.map Prod.fst).Nodup

/-- One delivered `RenderedEvent`: receiving subscriber, SSE event name, and
payload data (`Event::default().event(name).data(data)`). -/
structure Delivered where
  user_id : Nat
  event_name : String
  data : String
deriving DecidableEq, Repr

/-- Result of one delivery pass over the subscriber map: events accepted by a
live channel, subscribers for which a send was attempted (in iteration
order), and the `stale_sender` list of subscribers whose send failed. -/
structure PassResult where
  delivered : List Delivered
  attempts : List Nat
  stale_sender : List Nat
deriving DecidableEq, Repr

/-- The Insert/Update delivery loop (`live.rs` lines 174–189): for each
subscriber, render the fetched message for that subscriber; on render failure
skip the subscriber (no attempt, not stale); otherwise attempt the send and
record the subscriber as stale when the channel is gone. -/
def deliver_insert_update (env : RenderEnv) (channel_id server_id : Nat)
    (msg : Message) (is_update : Bool) :
    List (Nat × Sender) → PassResult
  | [] => ⟨[], [], []⟩
  | (user_id, tx) :: rest =>
    let tail := deliver_insert_update env channel_id server_id msg is_update rest
    match render_message env msg user_id channel_id server_id is_update with
    | .ok rendered =>
      if tx.alive then
        ⟨⟨user_id, "message", rendered⟩ :: tail.delivered,
          user_id :: tail.attempts, tail.stale_sender⟩
      else
        ⟨tail.delivered, user_id :: tail.attempts,
          user_id :: tail.stale_sender⟩
    | .error _ => tail

/-- The Delete delivery loop (`live.rs` lines 192–201): send the deletion
instruction to every subscriber; record stale channels. -/
def deliver_delete (env : RenderEnv) (message_id : Nat) :
    List (Nat × Sender) → PassResult
  | [] => ⟨[], [], []⟩
  | (id, tx) :: rest =>
    let tail := deliver_delete env message_id rest
    if tx.alive then
      ⟨⟨id, "message", delete_message_data env message_id⟩ :: tail.delivered,
        id :: tail.attempts, tail.stale_sender⟩
    else
      ⟨tail.delivered, id :: tail.attempts, id :: tail.stale_sender⟩

/-- The `struct ChannelIds` from `live.rs`. -/
structure ChannelIds where
  channel_id : Nat
  server_id : Nat
deriving DecidableEq, Repr

/-- Observable outcome of `handle_message_event` (`live.rs` lines 149–209):
how many entity fetches were issued, the delivery pass, the subscriber map
after the post-iteration removal of stale senders, and whether the function
returned `Err` (the `?` on the fetch). -/
structure EventOutcome where
  fetches : Nat
  attempts : List Nat
  delivered : List Delivered
  users : List (Nat × Sender)
  fetchError : Bool
deriving DecidableEq, Repr

/-- Embedding of `handle_message_event` (`live.rs` lines 149–209). `fetched` is the store's
response to the single `fetch_one` query by `message_id` (`none` models any
`sqlx::Error`, including no row). Insert/Update: one fetch; on failure return
`Err` with no deliveries and the map untouched; on success run the delivery
loop with `swap_oob = matches!(kind, Kind::Update)`. Delete: no fetch, deliver
the deletion instruction to all. In both loops the `stale_sender` list is
removed from the map only after the full iteration. -/
def handle_message_event (env : RenderEnv) (ids : ChannelIds)
    (message_id : Nat) (kind : Kind) (users : List (Nat × Sender))
    (fetched : Option Message) : EventOutcome :=
  match kind with
  | .Insert | .Update =>
    match fetched with
    | none => ⟨1, [], [], users, true⟩
    | some msg =>
      let pass := deliver_insert_update env ids.channel_id ids.server_id msg
        (kind == Kind.Update) users
      ⟨1, pass.attempts, pass.delivered,
        pass.stale_sender.foldl (fun m id => removeAL id m) users, false⟩
  | .Delete =>
    let pass := deliver_delete env message_id users
    ⟨0, pass.attempts, pass.delivered,
      pass.stale_sender.foldl (fun m id => removeAL id m) users, false⟩

/-- Outcome of the worker's registration branch (`live.rs` lines 139–143). -/
structure RegOutcome where
  users : List (Nat × Sender)
  responded : Bool
  panicked : Bool
deriving DecidableEq, Repr

/-- The worker's registration branch (`live.rs` lines 139–143): create a fresh
unbounded channel, insert its sending half into the subscriber map under
`user_id` (replacing any previous entry), then send the receiving half through
the one-shot response channel — unwrapped with
`.expect("Sending sse channel to work")`, so a dropped response receiver
panics the worker task. `responder_alive` says whether the one-shot receiver
still exists; `fresh` is the identity of the newly created channel. -/
def worker_handle_registration (users : List (Nat × Sender)) (user_id : Nat)
    (responder_alive : Bool) (fresh : Nat) : RegOutcome :=
  let tx : Sender := ⟨fresh, true⟩
  let users' := insertAL user_id tx users
  if responder_alive then
    ⟨users', true, false⟩
  else
    ⟨users', false, true⟩

/-! ## Topic directory / router (`create_listener`, `live.rs` lines 34–78) -/

/-- Router state: the `channel_tasks` map from channel id to the spawned
worker (identified by a spawn counter), plus the counter itself. -/
structure RouterState where
  channel_tasks : List (Nat × Nat)
  next_worker : Nat
deriving DecidableEq, Repr

/-- The two inputs the router loop selects over: a notification from the
database listener, or a registration request `(ids, (user_id, response))`. -/
inductive RouterInput
  | notif (channel : String) (payload : List Char)
  | register (ids : ChannelIds) (user_id : Nat)
deriving DecidableEq, Repr

/-- What one router step does, as observable from outside. -/
inductive RouterAction
  | panicked
  | ignored
  | dropped
  | sent_event (channel_id message_id : Nat) (kind : Kind)
  | forwarded_registration (worker user_id : Nat)
  | spawned_and_forwarded (worker : Nat) (ids : ChannelIds) (user_id : Nat)
deriving DecidableEq, Repr

/-- Embedding of `handle_notification` (`live.rs` lines 80–121): decode, then look the
topic up in `channel_tasks`; with no entry the event is dropped (trace log,
return); otherwise it is sent to that worker's event inbox. The map is taken
by shared reference and never modified. -/
def handle_notification (channel : String) (payload : List Char)
    (channel_tasks : List (Nat × Nat)) : RouterAction :=
  match decode_notification channel payload with
  | .panicked => .panicked
  | .rejected => .ignored
  | .ok ev =>
    match lookupAL ev.channel_id channel_tasks with
    | none => .dropped
    | some _ => .sent_event ev.channel_id ev.message_id ev.kind

/-- One iteration of the router loop (`live.rs` lines 46–71): a notification
is handled against the current map (which it cannot modify); a registration is
forwarded to the existing worker, or a new worker is spawned first
(`spawn_channel_task`) and recorded under `ids.channel_id`. -/
def router_step (s : RouterState) : RouterInput → RouterState × RouterAction
  | .notif channel payload =>
    (s, handle_notification channel payload s.channel_tasks)
  | .register ids user_id =>
    match lookupAL ids.channel_id s.channel_tasks with
    | some w => (s, .forwarded_registration w user_id)
    | none =>
      ({ channel_tasks := insertAL ids.channel_id s.next_worker s.channel_tasks,
         next_worker := s.next_worker + 1 },
        .spawned_and_forwarded s.next_worker ids user_id)

/-! ## Association-list lemmas -/

theorem lookupAL_insertAL_self {α : Type} (k : Nat) (v : α)
    (m : List (Nat × α)) : lookupAL k (insertAL k v m) = some v := by
  induction m with
  | nil => simp [insertAL, lookupAL]
  | cons p rest ih =>
    obtain ⟨k', v'⟩ := p
    by_cases hk : k' = k
    · simp [insertAL, hk, lookupAL]
    · simp [insertAL, hk, lookupAL, ih]

theorem lookupAL_insertAL_ne {α : Type} {k j : Nat} (v : α)
    (m : List (Nat × α)) (hne : j ≠ k) :
    lookupAL j (insertAL k v m) = lookupAL j m := by
  have hkj : ¬k = j := fun h => hne h.symm
  induction m with
  | nil => simp [insertAL, lookupAL, hkj]
  | cons p rest ih =>
    obtain ⟨k', v'⟩ := p
    by_cases hk : k' = k
    · subst hk
      simp [insertAL, lookupAL, hkj]
    · by_cases hj : k' = j
      · subst hj
        simp only [insertAL]
        rw [if_neg hne]
        simp [lookupAL]
      · simp [insertAL, hk, lookupAL, hj, ih]

theorem keys_insertAL {α : Type} (k : Nat) (v : α) (m : List (Nat × α)) :
    (insertAL k v m).map Prod.fst =
      if k ∈ m.map Prod.fst then m.map Prod.fst else m.map Prod.fst ++ [k] := by
  induction m with
  | nil => simp [insertAL]
  | cons p rest ih =>
    obtain ⟨k', v'⟩ := p
    by_cases hk : k' = k
    · subst hk
      simp [insertAL]
    · have hkk' : ¬k = k' := fun h => hk h.symm
      simp only [insertAL, if_neg hk, List.map_cons]
      rw [ih]
      by_cases hmem : k ∈ rest.map Prod.fst
      · simp [hmem, hkk']
      · simp [hmem, hkk']

theorem keyNodup_insertAL {α : Type} {m : List (Nat × α)} (h : keyNodup m)
    (k : Nat) (v : α) : keyNodup (insertAL k v m) := by
  unfold keyNodup at h ⊢
  rw [keys_insertAL]
  by_cases hmem : k ∈ m.map Prod.fst
  · simpa [hmem] using h
  · rw [if_neg hmem, List.nodup_append]
    refine ⟨h, List.nodup_singleton k, ?_⟩
    intro a ha hb
    rw [List.mem_singleton] at hb
    exact hmem (hb ▸ ha)

theorem removeAL_eq_filter {α : Type} {m : List (Nat × α)} (h : keyNodup m)
    (k : Nat) : removeAL k m = m.filter (fun p => p.1 != k) := by
  induction m with
  | nil => rfl
  | cons p rest ih =>
    obtain ⟨k', v'⟩ := p
    unfold keyNodup at h
    rw [List.map_cons, List.nodup_cons] at h
    obtain ⟨hnot, hrest⟩ := h
    by_cases hk : k' = k
    · subst hk
      have hall : rest.filter (fun p => p.1 != k') = rest :=
        List.filter_eq_self.mpr fun p hp => by
          have hne : p.1 ≠ k' := by
            intro he
            have hmm : p.1 ∈ rest.map Prod.fst :=
              List.mem_map_of_mem Prod.fst hp
            rw [he] at hmm
            exact hnot hmm
          simpa using hne
      simp [removeAL, hall]
    · simp [removeAL, hk, ih hrest]

theorem keyNodup_filter {α : Type} {m : List (Nat × α)} (h : keyNodup m)
    (p : Nat × α → Bool) : keyNodup (m.filter p) := by
  unfold keyNodup at h ⊢
  exact h.sublist (List.Sublist.map Prod.fst (List.filter_sublist m))

theorem foldl_removeAL {α : Type} (ks : List Nat) {m : List (Nat × α)}
    (h : keyNodup m) :
    ks.foldl (fun acc k => removeAL k acc) m =
      m.filter (fun p => decide (p.1 ∉ ks)) := by
  induction ks generalizing m with
  | nil => simp
  | cons k ks ih =>
    rw [List.foldl_cons]
    have h1 : removeAL k m = m.filter (fun p => p.1 != k) :=
      removeAL_eq_filter h k
    rw [h1, ih (keyNodup_filter h _), List.filter_filter]
    apply List.filter_congr
    intro p _
    by_cases h2 : p.1 = k <;> by_cases h3 : p.1 ∈ ks <;>
      simp [h2, h3, List.mem_cons]

theorem key_mem_filter_not_alive {users : List (Nat × Sender)}
    (h : keyNodup users) {p : Nat × Sender} (hp : p ∈ users) :
    (p.1 ∈ (users.filter fun q => !q.2.alive).map Prod.fst) = ¬p.2.alive := by
  simp only [eq_iff_iff]
  constructor
  · intro hmem
    obtain ⟨q, hq, hq1⟩ := List.mem_map.mp hmem
    rw [List.mem_filter] at hq
    have hqp : q = p := List.inj_on_of_nodup_map h hq.1 hp hq1
    subst hqp
    simpa using hq.2
  · intro halive
    exact List.mem_map_of_mem Prod.fst
      (List.mem_filter.mpr ⟨hp, by simpa using halive⟩)

/-! ## Delivery-pass lemmas -/

theorem render_message_ok {env : RenderEnv} {msg : Message} {t : Int}
    (h : env.get_datetime msg.id = some t)
    (user_id channel_id server_id : Nat) (w : Bool) :
    ∃ r, render_message env msg user_id channel_id server_id w = .ok r := by
  simp only [render_message, h]
  exact ⟨_, rfl⟩

theorem deliver_insert_update_pass {env : RenderEnv} {msg : Message} {t : Int}
    (h : env.get_datetime msg.id = some t) (c s : Nat) (w : Bool)
    (users : List (Nat × Sender)) :
    (deliver_insert_update env c s msg w users).attempts = users.map Prod.fst ∧
    (deliver_insert_update env c s msg w users).delivered.map Delivered.user_id
      = ((users.filter fun p => p.2.alive).map Prod.fst) ∧
    (deliver_insert_update env c s msg w users).stale_sender
      = ((users.filter fun p => !p.2.alive).map Prod.fst) := by
  induction users with
  | nil => exact ⟨rfl, rfl, rfl⟩
  | cons p rest ih =>
    obtain ⟨uid, tx⟩ := p
    obtain ⟨r, hr⟩ := render_message_ok h uid c s w
    cases htx : tx.alive
    · simp [deliver_insert_update, hr, htx, List.filter_cons, ih.1, ih.2.1,
        ih.2.2]
    · simp [deliver_insert_update, hr, htx, List.filter_cons, ih.1, ih.2.1,
        ih.2.2]

theorem deliver_delete_pass (env : RenderEnv) (message_id : Nat)
    (users : List (Nat × Sender)) :
    (deliver_delete env message_id users).attempts = users.map Prod.fst ∧
    (deliver_delete env message_id users).delivered
      = ((users.filter fun p => p.2.alive).map
          (fun p => ⟨p.1, "message", delete_message_data env message_id⟩)) ∧
    (deliver_delete env message_id users).stale_sender
      = ((users.filter fun p => !p.2.alive).map Prod.fst) := by
  induction users with
  | nil => exact ⟨rfl, rfl, rfl⟩
  | cons p rest ih =>
    obtain ⟨uid, tx⟩ := p
    cases htx : tx.alive
    · simp [deliver_delete, htx, List.filter_cons, ih.1, ih.2.1, ih.2.2]
    · simp [deliver_delete, htx, List.filter_cons, ih.1, ih.2.1, ih.2.2]

theorem deliver_insert_update_tags (env : RenderEnv) (c s : Nat)
    (msg : Message) (w : Bool) (users : List (Nat × Sender)) :
    ∀ d ∈ (deliver_insert_update env c s msg w users).delivered,
      d.event_name = "message" := by
  induction users with
  | nil => simp [deliver_insert_update]
  | cons p rest ih =>
    obtain ⟨uid, tx⟩ := p
    intro d hd
    unfold deliver_insert_update at hd
    cases hr : render_message env msg uid c s w with
    | error e =>
      rw [hr] at hd
      exact ih d hd
    | ok r =>
      rw [hr] at hd
      cases htx : tx.alive
      · rw [htx] at hd
        simp only [Bool.false_eq_true, if_false] at hd
        exact ih d hd
      · rw [htx] at hd
        simp only [if_true] at hd
        rcases List.mem_cons.mp hd with rfl | hd'
        · rfl
        · exact ih d hd'

/-! ## Concrete sample data used by witnesses -/

/-- A concrete instantiation of the renderer's external collaborators. -/
def sampleEnv : RenderEnv where
  escape := fun s => s
  toRfc3339 := fun _ => "t"
  toRelative := fun _ => "r"
  uuidToString := fun _ => "u"
  get_datetime := fun _ => some 0
  now := 0

/-- A concrete fetched message (author 7). -/
def sampleMsg : Message := ⟨5, "hi", 0, 7, "alice"⟩

/-- Two subscribers: user 1 with a live channel, user 2 with a dropped one. -/
def sampleUsers : List (Nat × Sender) := [(1, ⟨10, true⟩), (2, ⟨20, false⟩)]

/-- A 72-character payload made of the same hyphenated UUID twice. -/
def payloadW : List Char :=
  String.toList
    "11111111-1111-1111-1111-11111111111111111111-1111-1111-1111-111111111111"

/-! ## Claim theorems -/

/-- C2: a decoded change event whose topic has no entry in the router's
`channel_tasks` map is dropped: the router state is unchanged (so no worker is
created) and the action is the silent drop, with no delivery and no error
surfaced; moreover any router step that changes the state at all is a
registration for a topic with no existing entry, and the change is exactly the
recording of the newly spawned worker for that topic. -/
theorem C2_route_event_unknown_topic :
    (∀ (s : RouterState) (channel : String) (payload : List Char)
        (ev : ChangeEvent),
      decode_notification channel payload = .ok ev →
      lookupAL ev.channel_id s.channel_tasks = none →
      router_step s (.notif channel payload) = (s, .dropped)) ∧
    (∀ (s : RouterState) (inp : RouterInput),
      (router_step s inp).1 ≠ s →
      ∃ ids user_id, inp = .register ids user_id ∧
        lookupAL ids.channel_id s.channel_tasks = none ∧
        (router_step s inp).1.channel_tasks
          = insertAL ids.channel_id s.next_worker s.channel_tasks) := by
  constructor
  · intro s channel payload ev hdec hlook
    unfold router_step handle_notification
    dsimp only
    rw [hdec]
    dsimp only
    rw [hlook]
  · intro s inp hne
    cases inp with
    | notif channel payload => exact absurd rfl hne
    | register ids user_id =>
      cases hlook : lookupAL ids.channel_id s.channel_tasks with
      | some w =>
        exfalso
        apply hne
        unfold router_step
        dsimp only
        rw [hlook]
      | none =>
        refine ⟨ids, user_id, rfl, hlook, ?_⟩
        unfold router_step
        dsimp only
        rw [hlook]

theorem C2_route_event_unknown_topic_witness :
    router_step ⟨[], 0⟩ (.notif "insert_message" payloadW)
      = (⟨[], 0⟩, .dropped) :=
  C2_route_event_unknown_topic.1 ⟨[], 0⟩ "insert_message" payloadW
    ⟨Kind.Insert, 0x11111111111111111111111111111111,
      0x11111111111111111111111111111111⟩ (by decide) (by decide)

/-- C3 counterexample: processing a registration whose one-shot response
receiver is gone does NOT discard the failed send quietly — the worker
unwraps it with `.expect("Sending sse channel to work")` and panics,
contradicting the claim that the worker does not panic or stop. -/
theorem C3_counterexample :
    (worker_handle_registration [] 1 false 0).panicked = true ∧
    (worker_handle_registration [] 1 false 0).responded = false := by
  decide

/-- C3 (amended): when the response receiver is gone, the send failure makes
the worker panic through the `expect` (stopping that worker task); the fresh
subscriber entry had already been inserted into the map before the panic, and
no response is delivered. -/
theorem C3_amended_registration_panics (users : List (Nat × Sender))
    (user_id fresh : Nat) :
    (worker_handle_registration users user_id false fresh).panicked = true ∧
    (worker_handle_registration users user_id false fresh).responded = false ∧
    lookupAL user_id
        (worker_handle_registration users user_id false fresh).users
      = some ⟨fresh, true⟩ := by
  refine ⟨rfl, rfl, ?_⟩
  unfold worker_handle_registration
  simpa using lookupAL_insertAL_self user_id ⟨fresh, true⟩ users

/-- The failing input for C4: 72 bytes, recognized channel, but byte index 36
falls inside the two-byte character `é`, so `&payload[..36]` panics. -/
def panicPayload : List Char :=
  List.replicate 35 'a' ++ 'é' :: List.replicate 35 'a'

/-- C4: the claim that `handle_notification` never panics on malformed input
is wrong: this 72-byte payload passes the length check and the channel-name
check, and then the byte slice `&payload[..36]` panics because byte 36 is not
a character boundary. -/
theorem C4_notification_panic :
    utf8Len panicPayload = 72 ∧
    decode_notification "insert_message" panicPayload = .panicked ∧
    handle_notification "insert_message" panicPayload [] = .panicked := by
  decide

/-- C5: for Insert and Update events exactly one entity fetch is issued per
event regardless of the number of subscribers (its result is shared by the
delivery loop), and the rendered output for two subscribers agrees whenever
their ownership flag `msg.author == user_id` agrees — the renderer consults
the subscriber identity only through that flag. -/
theorem C5_single_fetch_render_flag (env : RenderEnv) (ids : ChannelIds)
    (message_id : Nat) (kind : Kind) (users : List (Nat × Sender))
    (fetched : Option Message) (msg : Message) (u1 u2 c s : Nat) (w : Bool)
    (hkind : kind = Kind.Insert ∨ kind = Kind.Update)
    (hflag : (msg.author == u1) = (msg.author == u2)) :
    (handle_message_event env ids message_id kind users fetched).fetches = 1 ∧
    render_message env msg u1 c s w = render_message env msg u2 c s w := by
  constructor
  · rcases hkind with rfl | rfl <;> cases fetched <;> rfl
  · simp only [render_message]
    rw [hflag]

theorem C5_single_fetch_render_flag_witness :
    (handle_message_event sampleEnv ⟨1, 2⟩ 5 Kind.Insert sampleUsers
        (some sampleMsg)).fetches = 1 ∧
    render_message sampleEnv sampleMsg 1 1 2 false
      = render_message sampleEnv sampleMsg 2 1 2 false :=
  C5_single_fetch_render_flag sampleEnv ⟨1, 2⟩ 5 Kind.Insert sampleUsers
    (some sampleMsg) sampleMsg 1 2 1 2 false (Or.inl rfl) (by decide)

/-- C6: when the entity fetch for an Insert or Update event fails, the event
is aborted before any delivery: one fetch was issued, no delivery was
attempted, nothing was delivered, the subscriber map is exactly as before
(nobody is removed), and the function returns the error. -/
theorem C6_fetch_failure_aborts (env : RenderEnv) (ids : ChannelIds)
    (message_id : Nat) (kind : Kind) (users : List (Nat × Sender))
    (hkind : kind = Kind.Insert ∨ kind = Kind.Update) :
    handle_message_event env ids message_id kind users none
      = ⟨1, [], [], users, true⟩ := by
  rcases hkind with rfl | rfl <;> rfl

theorem C6_fetch_failure_aborts_witness :
    handle_message_event sampleEnv ⟨1, 2⟩ 5 Kind.Insert sampleUsers none
      = ⟨1, [], [], sampleUsers, true⟩ :=
  C6_fetch_failure_aborts sampleEnv ⟨1, 2⟩ 5 Kind.Insert sampleUsers
    (Or.inl rfl)

/-- C7: a Delete event issues no entity fetch, a delivery is attempted to
every subscriber in the map, and every delivered payload is the same deletion
instruction, which depends only on the event's entity id. -/
theorem C7_delete_no_fetch_identical (env : RenderEnv) (ids : ChannelIds)
    (message_id : Nat) (users : List (Nat × Sender))
    (fetched : Option Message) :
    (handle_message_event env ids message_id Kind.Delete users fetched).fetches
      = 0 ∧
    (handle_message_event env ids message_id Kind.Delete users
        fetched).attempts = users.map Prod.fst ∧
    (handle_message_event env ids message_id Kind.Delete users
        fetched).delivered
      = ((users.filter fun p => p.2.alive).map
          (fun p => ⟨p.1, "message", delete_message_data env message_id⟩)) := by
  obtain ⟨h1, h2, h3⟩ := deliver_delete_pass env message_id users
  exact ⟨rfl, h1, h2⟩

/-- Single-event characterization used by C8: when the fetch succeeds and the
message id yields a timestamp (so every per-subscriber render succeeds), a
delivery is attempted for every subscriber in the map — stale entries are not
removed until the iteration is over — every live subscriber's channel accepts
its event, and the map afterwards consists of exactly the live subscribers. -/
theorem handle_message_event_pass (env : RenderEnv) (ids : ChannelIds)
    (message_id : Nat) (kind : Kind) (users : List (Nat × Sender))
    (msg : Message) (t : Int) (hnodup : keyNodup users)
    (hdt : env.get_datetime msg.id = some t) :
    (handle_message_event env ids message_id kind users (some msg)).attempts
      = users.map Prod.fst ∧
    (handle_message_event env ids message_id kind users (some msg)).users
      = users.filter (fun p => p.2.alive) ∧
    ((handle_message_event env ids message_id kind users
        (some msg)).delivered.map Delivered.user_id)
      = ((users.filter fun p => p.2.alive).map Prod.fst) := by
  have hremove : ∀ stale : List Nat,
      stale = ((users.filter fun p => !p.2.alive).map Prod.fst) →
      stale.foldl (fun m id => removeAL id m) users
        = users.filter (fun p => p.2.alive) := by
    intro stale hst
    subst hst
    rw [foldl_removeAL _ hnodup]
    apply List.filter_congr
    intro p hp
    have hmem := key_mem_filter_not_alive hnodup hp
    by_cases halive : p.2.alive = true
    · have hnot : p.1 ∉ ((users.filter fun q => !q.2.alive).map Prod.fst) := by
        rw [hmem]
        simpa using halive
      simp [hnot, halive]
    · have hin : p.1 ∈ ((users.filter fun q => !q.2.alive).map Prod.fst) := by
        rw [hmem]
        exact halive
      simp [hin, Bool.eq_false_iff.mpr halive]
  cases kind with
  | Insert =>
    obtain ⟨h1, h2, h3⟩ := deliver_insert_update_pass hdt ids.channel_id
      ids.server_id (Kind.Insert == Kind.Update) users
    exact ⟨h1, hremove _ h3, h2⟩
  | Update =>
    obtain ⟨h1, h2, h3⟩ := deliver_insert_update_pass hdt ids.channel_id
      ids.server_id (Kind.Update == Kind.Update) users
    exact ⟨h1, hremove _ h3, h2⟩
  | Delete =>
    obtain ⟨h1, h2, h3⟩ := deliver_delete_pass env message_id users
    refine ⟨h1, hremove _ h3, ?_⟩
    show (deliver_delete env message_id users).delivered.map Delivered.user_id
      = _
    rw [h2, List.map_map]
    rfl

/-- C8: during one event, a delivery is attempted for every subscriber
present at the start — removal of stale senders happens only after the full
iteration — and afterwards the map consists of exactly the subscribers whose
channel was still open; on the next event, no attempt is made for the pruned
subscribers while every surviving subscriber is attempted and receives the
event. -/
theorem C8_prune_after_full_iteration (env : RenderEnv) (ids : ChannelIds)
    (mid1 mid2 : Nat) (kind1 kind2 : Kind) (users : List (Nat × Sender))
    (msg : Message) (t : Int) (hnodup : keyNodup users)
    (hdt : env.get_datetime msg.id = some t) :
    (handle_message_event env ids mid1 kind1 users (some msg)).attempts
      = users.map Prod.fst ∧
    (handle_message_event env ids mid1 kind1 users (some msg)).users
      = users.filter (fun p => p.2.alive) ∧
    ((handle_message_event env ids mid1 kind1 users (some msg)).delivered.map
        Delivered.user_id)
      = ((users.filter fun p => p.2.alive).map Prod.fst) ∧
    (handle_message_event env ids mid2 kind2
        (handle_message_event env ids mid1 kind1 users (some msg)).users
        (some msg)).attempts
      = ((users.filter fun p => p.2.alive).map Prod.fst) ∧
    ((handle_message_event env ids mid2 kind2
        (handle_message_event env ids mid1 kind1 users (some msg)).users
        (some msg)).delivered.map Delivered.user_id)
      = ((users.filter fun p => p.2.alive).map Prod.fst) := by
  obtain ⟨h1, h2, h3⟩ :=
    handle_message_event_pass env ids mid1 kind1 users msg t hnodup hdt
  have hnodup2 : keyNodup (users.filter (fun p => p.2.alive)) :=
    keyNodup_filter hnodup _
  obtain ⟨g1, g2, g3⟩ := handle_message_event_pass env ids mid2 kind2
    (users.filter (fun p => p.2.alive)) msg t hnodup2 hdt
  have hidem : (users.filter (fun p => p.2.alive)).filter
      (fun p => p.2.alive) = users.filter (fun p => p.2.alive) := by
    rw [List.filter_filter]
    apply List.filter_congr
    intro p _
    cases p.2.alive <;> rfl
  refine ⟨h1, h2, h3, ?_, ?_⟩
  · rw [h2, g1]
  · rw [h2, g3, hidem]

theorem C8_prune_after_full_iteration_witness :
    (handle_message_event sampleEnv ⟨1, 2⟩ 5 Kind.Insert sampleUsers
        (some sampleMsg)).users
      = sampleUsers.filter (fun p => p.2.alive) :=
  (C8_prune_after_full_iteration sampleEnv ⟨1, 2⟩ 5 6 Kind.Insert Kind.Insert
    sampleUsers sampleMsg 0 (by unfold keyNodup; decide) (by decide)).2.1

/-- C9 counterexample: in the concrete insert scenario the subscriber's
stream yields an event whose tag is `"message"`, not `"insert"` — the code
tags every delivered event `"message"` and does not use the change kind as
the event tag. -/
theorem C9_counterexample :
    ((handle_message_event sampleEnv ⟨1, 2⟩ 5 Kind.Insert sampleUsers
        (some sampleMsg)).delivered.map Delivered.event_name = ["message"]) ∧
    "message" ≠ "insert" := by
  decide

/-- C9 (amended): every RenderedEvent delivered to a subscriber carries the
fixed event tag `"message"`, for insert, update and delete events alike; the
change kind is conveyed inside the payload (out-of-band swap attribute for
updates, a deletion instruction for deletes), not by the tag. -/
theorem C9_amended_tag_always_message (env : RenderEnv) (ids : ChannelIds)
    (message_id : Nat) (kind : Kind) (users : List (Nat × Sender))
    (fetched : Option Message) :
    ∀ d ∈ (handle_message_event env ids message_id kind users
        fetched).delivered, d.event_name = "message" := by
  intro d hd
  cases kind with
  | Insert =>
    cases fetched with
    | none => simp [handle_message_event] at hd
    | some msg =>
      exact deliver_insert_update_tags env ids.channel_id ids.server_id msg
        (Kind.Insert == Kind.Update) users d hd
  | Update =>
    cases fetched with
    | none => simp [handle_message_event] at hd
    | some msg =>
      exact deliver_insert_update_tags env ids.channel_id ids.server_id msg
        (Kind.Update == Kind.Update) users d hd
  | Delete =>
    have h := (deliver_delete_pass env message_id users).2.1
    have hd' : d ∈ (deliver_delete env message_id users).delivered := hd
    rw [h] at hd'
    obtain ⟨p, _, hp⟩ := List.mem_map.mp hd'
    rw [← hp]

theorem C9_amended_tag_witness :
    Delivered.event_name ⟨1, "message", delete_message_data sampleEnv 9⟩
      = "message" :=
  C9_amended_tag_always_message sampleEnv ⟨1, 2⟩ 9 Kind.Delete sampleUsers
    none ⟨1, "message", delete_message_data sampleEnv 9⟩ (by decide)

/-- C10: processing a registration (with a live responder) installs a freshly
created delivery channel under the registering subscriber id, replacing any
previous channel for that id while leaving every other entry unchanged, and
it preserves the map's one-entry-per-key invariant — the most recent
registration wins and at most one delivery channel per subscriber exists. -/
theorem C10_registration_replaces (users : List (Nat × Sender))
    (user_id fresh : Nat) :
    (worker_handle_registration users user_id true fresh).panicked = false ∧
    lookupAL user_id
        (worker_handle_registration users user_id true fresh).users
      = some ⟨fresh, true⟩ ∧
    (∀ k, k ≠ user_id →
      lookupAL k (worker_handle_registration users user_id true fresh).users
        = lookupAL k users) ∧
    (keyNodup users →
      keyNodup (worker_handle_registration users user_id true fresh).users) := by
  refine ⟨rfl, ?_, ?_, ?_⟩
  · unfold worker_handle_registration
    simpa using lookupAL_insertAL_self user_id ⟨fresh, true⟩ users
  · intro k hk
    unfold worker_handle_registration
    simpa using lookupAL_insertAL_ne ⟨fresh, true⟩ users hk
  · intro h
    unfold worker_handle_registration
    simpa using keyNodup_insertAL h user_id ⟨fresh, true⟩

theorem C10_registration_replaces_witness :
    lookupAL 1 (worker_handle_registration sampleUsers 1 true 99).users
      = some ⟨99, true⟩ ∧
    lookupAL 2 (worker_handle_registration sampleUsers 1 true 99).users
      = lookupAL 2 sampleUsers :=
  ⟨(C10_registration_replaces sampleUsers 1 99).2.1,
    (C10_registration_replaces sampleUsers 1 99).2.2.1 2 (by decide)⟩

end LiveChat
